import Mathlib

/-!
Verification of the KIT-Ilias-Downloader host program and its scheduler contract.

Shallow embedding of `src/main.py` (the host program) together with a model of
the `TimeScheduler` component, whose implementation file (`scheduler.py`) is
imported by the host but is not part of the available sources; the scheduler
model is therefore derived from the specification, and every definition
modelled that way is marked `Modelled from the spec:` in its doc comment.

The host is embedded as a trace semantics: each Python function becomes a Lean
function returning the list of observable events it performs together with an
optional raised exception (Python exceptions propagate, so callers thread the
error through). External nondeterminism (environment variables, filesystem
checks, subprocess return codes, the platform check, interactive setup) is
passed in as explicit parameters.
-/

/-- The subset of Python values stored in the configuration dict of
`load_config`: `None`, strings, and the integer defaults `10` / `100`. -/
inductive PyVal where
  | vNone : PyVal
  | vStr (s : String) : PyVal
  | vInt (n : Nat) : PyVal
deriving DecidableEq, Repr

/-- Python truthiness for the values appearing in the config dict:
`None` and `""` are falsy; `0` is falsy (unreachable for the given defaults). -/
def pyTruthy : PyVal → Bool
  | .vNone => false
  | .vStr s => !(s.isEmpty)
  | .vInt n => n != 0

/-- Python `str()` of a config value, as used by f-string interpolation. -/
def PyVal.fstr : PyVal → String
  | .vNone => "None"
  | .vStr s => s
  | .vInt n => toString n

/-- The `key_defaults` table of `load_config` in `src/main.py`, verbatim. -/
def keyDefaults : List (String × PyVal) :=
  [ ("ILIAS_DOWNLOADER_USER_NAME", .vNone),
    ("ILIAS_DOWNLOADER_PASSWORD", .vNone),
    ("ILIAS_DOWNLOADER_CLOUD_OUTPUT_PATH", .vStr "output"),
    ("ILIAS_DOWNLOADER_SYNC_URL", .vNone),
    ("ILIAS_DOWNLOADER_JOBS", .vInt 10),
    ("ILIAS_DOWNLOADER_RATE", .vInt 100),
    ("ILIAS_DOWNLOADER_RCLONE_REMOTE_NAME", .vStr "IliasDL-Cloud-Drive"),
    ("ILIAS_DOWNLOADER_CLIENT_ID", .vNone),
    ("ILIAS_DOWNLOADER_CLIENT_SECRET", .vNone),
    ("ILIAS_DOWNLOADER_UPLOAD_TIMES", .vStr "00:00") ]

/-- Python `os.getenv(key) or default`: the env value when it is set and non-empty
(a set-but-empty variable is falsy in Python), the default otherwise. -/
def envOr (env : String → Option String) (key : String) (default : PyVal) : PyVal :=
  match env key with
  | some s => if s.isEmpty then default else .vStr s
  | none => default

/-- Function `load_config` of `src/main.py`: builds the config dict by applying
`os.getenv(key) or default` to each entry of `key_defaults`. -/
def load_config (env : String → Option String) : List (String × PyVal) :=
  keyDefaults.map (fun kd => (kd.1, envOr env kd.1 kd.2))

/-- Python dict lookup `cfg[key]` on the association list representing the
config dict (all keys looked up by the program are present in the dict). -/
def cfgGet (cfg : List (String × PyVal)) (key : String) : PyVal :=
  match cfg.find? (fun kv => kv.1 == key) with
  | some kv => kv.2
  | none => .vNone

/-- Auxiliary for Python `str.split()` (no separator argument): split a list
of characters on runs of whitespace, dropping empty pieces; `acc` holds the
current token in reverse. -/
def splitWsAux : List Char → List Char → List (List Char)
  | [], acc => if acc.isEmpty then [] else [acc.reverse]
  | c :: cs, acc =>
    if c.isWhitespace then
      if acc.isEmpty then splitWsAux cs [] else acc.reverse :: splitWsAux cs []
    else splitWsAux cs (c :: acc)

/-- Python `str.split()` with no arguments: whitespace-separated tokens,
with no empty tokens. -/
def pySplit (s : String) : List String :=
  (splitWsAux s.toList []).map (fun cs => String.mk cs)

/-- Identifier of the zero-argument callback passed to `Task` by the host.
The host only ever registers `download_ilias_data`. -/
inductive HostAction where
  | downloadIliasData : HostAction
deriving DecidableEq, Repr

/-- Observable events of the host program, in program order. -/
inductive Event where
  /-- `os.makedirs('./data')` on first run. -/
  | madeDataDir : Event
  /-- `logging.error(msg)`. -/
  | logError (msg : String) : Event
  /-- `logging.info(msg)`. -/
  | logInfo (msg : String) : Event
  /-- `subprocess.run(cmd, shell=True)`. -/
  | runShell (cmd : String) : Event
  /-- The call of `download_ilias_data()` (entry into the function body). -/
  | downloadCall : Event
  /-- The call of `upload_rclone(local, remote)` with its two arguments. -/
  | uploadCall (output_path_local output_path_remote : String) : Event
  /-- The interactive `setup_ilias_downloader()` call. -/
  | setupIliasDownloader : Event
  /-- The interactive `setup_rclone()` loop completing. -/
  | setupRclone : Event
  /-- `TimeScheduler()` construction. -/
  | schedulerNew : Event
  /-- `ts.add(Task(t, action))`. -/
  | schedulerAdd (timeOfDay : String) (action : HostAction) : Event
  /-- `ts.start()`. -/
  | schedulerStart : Event
  /-- `Event().wait()`: the host blocks forever. -/
  | waitForever : Event
deriving DecidableEq, Repr

/-- A Python computation: the trace of events it performed, and `some msg`
when it terminated by raising an exception (events before the raise remain). -/
abbrev PyRun := List Event × Option String

/-- The `rclone copy` command string built by `upload_rclone` from the
remote name in the config and the two path arguments. -/
def uploadCommand (cfg : List (String × PyVal))
    (output_path_local output_path_remote : String) : String :=
  let r_name := (cfgGet cfg "ILIAS_DOWNLOADER_RCLONE_REMOTE_NAME").fstr
  "rclone copy --progress --ignore-existing \"" ++ output_path_local
    ++ "\" \"" ++ r_name ++ ":" ++ output_path_remote ++ "\""

/-- Function `upload_rclone` of `src/main.py`: builds the `rclone copy` command, runs
it, ignores its return code, and logs completion.  `upRc` is the rclone
subprocess's return code; the function never consults it and never raises. -/
def upload_rclone (cfg : List (String × PyVal)) (upRc : Int)
    (output_path_local : String := "output") (output_path_remote : String := "output") :
    PyRun :=
  ([Event.uploadCall output_path_local output_path_remote,
    Event.runShell (uploadCommand cfg output_path_local output_path_remote),
    Event.logInfo "Cloud upload completed."], none)

/-- The exception message raised by `download_ilias_data` on a nonzero
downloader return code. -/
def downloadErrMsg : String :=
  "Could not execute the ilias download command. If on linux/mac run: chmod +x KIT-ILIAS-downloader to make the downloader executable."

/-- The downloader command string built by `download_ilias_data`
(`unixLike` is the `unix_like()` platform check). -/
def downloadCommand (cfg : List (String × PyVal)) (unixLike : Bool) : String :=
  let base := if unixLike then "~/.cargo/bin/KIT-ILIAS-downloader" else "KIT-ILIAS-downloader"
  let command := base
      ++ " -U " ++ (cfgGet cfg "ILIAS_DOWNLOADER_USER_NAME").fstr
      ++ " -P \"" ++ (cfgGet cfg "ILIAS_DOWNLOADER_PASSWORD").fstr ++ "\""
      ++ " -o \"output\""
      ++ " --jobs  " ++ (cfgGet cfg "ILIAS_DOWNLOADER_JOBS").fstr
      ++ " --rate " ++ (cfgGet cfg "ILIAS_DOWNLOADER_RATE").fstr
  if pyTruthy (cfgGet cfg "ILIAS_DOWNLOADER_SYNC_URL")
    then command ++ " --sync-url \"" ++ (cfgGet cfg "ILIAS_DOWNLOADER_SYNC_URL").fstr ++ "\""
    else command

/-- Function `download_ilias_data` of `src/main.py`.  `dlRc` is the downloader
subprocess's return code and `upRc` the rclone subprocess's return code.
On `dlRc = 0` it logs success and calls
`upload_rclone("output", cfg['ILIAS_DOWNLOADER_CLOUD_OUTPUT_PATH'])`;
otherwise it raises. -/
def download_ilias_data (cfg : List (String × PyVal)) (unixLike : Bool)
    (dlRc upRc : Int) : PyRun :=
  let evs := [Event.downloadCall,
              Event.logInfo "Starting ilias download...",
              Event.runShell (downloadCommand cfg unixLike)]
  if dlRc = 0 then
    let up := upload_rclone cfg upRc "output" (cfgGet cfg "ILIAS_DOWNLOADER_CLOUD_OUTPUT_PATH").fstr
    (evs ++ [Event.logInfo "Download from ilias completed. Starting upload to the cloud..."] ++ up.1,
     up.2)
  else
    (evs, some downloadErrMsg)

/-- The `__main__` block of `src/main.py`.  Parameters model the externals:
`env` the process environment, `dataExists` whether `./data` exists,
`outputExists` whether `output` exists, `unixLike` the platform check,
`setupOk` whether the interactive `setup_ilias_downloader()` call and the
`setup_rclone()` loop complete normally (they prompt the user and run
installers; a failed or aborted setup raises/quits, abstracted as an
exception), `dlRc`/`upRc` the downloader/rclone subprocess return codes of
the first-run download (used only when `output` does not exist). -/
def mainProgram (env : String → Option String)
    (dataExists outputExists unixLike setupOk : Bool) (dlRc upRc : Int) : PyRun :=
  let pre := if dataExists then [] else [Event.madeDataDir]
  let cfg := load_config env
  if pyTruthy (cfgGet cfg "ILIAS_DOWNLOADER_USER_NAME") = false then
    (pre ++ [Event.logError "The Ilias username has not been set"], none)
  else if pyTruthy (cfgGet cfg "ILIAS_DOWNLOADER_PASSWORD") = false then
    (pre ++ [Event.logError "The Ilias password has not been set"], none)
  else if setupOk = false then
    (pre ++ [Event.setupIliasDownloader], some "setup aborted")
  else
    let setupEvs := [Event.setupIliasDownloader, Event.setupRclone]
    let dl := if outputExists then ([], none)
              else download_ilias_data cfg unixLike dlRc upRc
    match dl.2 with
    | some e => (pre ++ setupEvs ++ dl.1, some e)
    | none =>
      match cfgGet cfg "ILIAS_DOWNLOADER_UPLOAD_TIMES" with
      | .vStr uts =>
        let upload_times := pySplit uts
        (pre ++ setupEvs ++ dl.1
          ++ [Event.logInfo ("Scheduling automatic downloads for " ++ toString upload_times),
              Event.schedulerNew]
          ++ upload_times.map (fun t => Event.schedulerAdd t HostAction.downloadIliasData)
          ++ [Event.schedulerStart, Event.waitForever], none)
      | _ => (pre ++ setupEvs ++ dl.1, some "AttributeError")

/-! ## The TimeScheduler component

`scheduler.py` (imported by the host as `from scheduler import TimeScheduler,
Task`) is not among the available sources; the definitions below are modelled
from the specification (§3, §4.1, §5, §7). -/

/-- Modelled from the spec: the `ConfigurationError` with which `add` rejects
a malformed `HH:MM` time-of-day (spec §4.1, §7); `scheduler.py` is missing
from the sources. -/
inductive ConfigurationError where
  | invalidTimeOfDay (timeOfDay : String) : ConfigurationError
deriving DecidableEq, Repr

/-- Value of a decimal digit character, `none` for a non-digit. -/
def digitVal? (c : Char) : Option Nat :=
  if c.isDigit then some (c.toNat - '0'.toNat) else none

/-- Read a nonempty all-digit character list as a decimal number. -/
def digitsToNatAux : List Char → Nat → Option Nat
  | [], acc => some acc
  | c :: cs, acc =>
    match digitVal? c with
    | some d => digitsToNatAux cs (10 * acc + d)
    | none => none

/-- Decimal value of a character list; `none` when empty or not all digits. -/
def digitsToNat? : List Char → Option Nat
  | [] => none
  | cs => digitsToNatAux cs 0

/-- Split a character list on every occurrence of `sep` (keeping empties,
like Python `str.split(sep)`). -/
def splitOnChar (sep : Char) : List Char → List (List Char)
  | [] => [[]]
  | c :: cs =>
    if c = sep then [] :: splitOnChar sep cs
    else
      match splitOnChar sep cs with
      | [] => [[c]]
      | t :: ts => (c :: t) :: ts

/-- Modelled from the spec: parsing of a `timeOfDay` argument of `add` as a
valid 24-hour `HH:MM` (hour 0-23, minute 0-59); anything else — wrong shape,
non-digits, hour or minute out of range — fails (spec §4.1); `scheduler.py`
is missing from the sources. -/
def parseTimeOfDay (s : String) : Option (Nat × Nat) :=
  match splitOnChar ':' s.toList with
  | [h, m] =>
    match digitsToNat? h, digitsToNat? m with
    | some hv, some mv => if hv ≤ 23 ∧ mv ≤ 59 then some (hv, mv) else none
    | _, _ => none
  | _ => none

/-- Modelled from the spec: a registered `Task` — target time-of-day (hour,
minute) plus the zero-argument action (spec §3); `scheduler.py` is missing
from the sources. -/
structure STask where
  hour : Nat
  minute : Nat
  action : HostAction
deriving DecidableEq, Repr

/-- Modelled from the spec: the `TimeScheduler` registry state — the ordered
task registry and the `running` flag, initially empty and stopped (spec §3);
`scheduler.py` is missing from the sources. -/
structure TimeScheduler where
  tasks : List STask := []
  running : Bool := false
deriving DecidableEq, Repr

/-- Modelled from the spec: `add(timeOfDay, action)` — validates the `HH:MM`
string, appends a `Task` to the registry on success, and rejects a malformed
entry with a `ConfigurationError`, registering nothing and never touching the
driver/`running` state (spec §4.1, §7); `scheduler.py` is missing from the
sources. -/
def TimeScheduler.add (ts : TimeScheduler) (timeOfDay : String) (action : HostAction) :
    Except ConfigurationError TimeScheduler :=
  match parseTimeOfDay timeOfDay with
  | some hm => .ok { ts with tasks := ts.tasks ++ [⟨hm.1, hm.2, action⟩] }
  | none => .error (.invalidTimeOfDay timeOfDay)

/-- Modelled from the spec: per-task driver state under the polling approach
(spec §4.1 approach (b), §5) — the `running` flag, whether the task is still
registered, and the last calendar day on which the task fired (the
"last-fired timestamp per task used to prevent double-firing within one
matching window"); `scheduler.py` is missing from the sources. -/
structure DriverState where
  running : Bool
  registered : Bool
  lastFiredDay : Option Nat
deriving DecidableEq, Repr

/-- Fresh driver state right after `start()`: running, task registered,
never fired. -/
def initialDriverState : DriverState := ⟨true, true, none⟩

/-- Observable events of the driver loop for one task: an invocation of the
task's action at minute `t`, and the logging-hook report of an exception the
action raised at minute `t`. -/
inductive DriverEvent where
  | invoked (t : Nat) : DriverEvent
  | errorLogged (t : Nat) : DriverEvent
deriving DecidableEq, Repr

/-- Modelled from the spec: one polling step of the driver at absolute minute
`t` (wall-clock time-of-day is `t % 1440`, the calendar day `t / 1440`) for a
task whose target minute-of-day is `target`.  The task fires iff the
scheduler is running, the task is registered, the current time-of-day matches
the target, and the task has not already fired today; an action that raises
(`raises t = true`) is caught at the call site and reported via the logging
hook, leaving the driver running and the task registered (spec §4.1 driver
algorithm, overlap guard, failure semantics); `scheduler.py` is missing from
the sources. -/
def driverStep (raises : Nat → Bool) (target : Nat) (s : DriverState) (t : Nat) :
    List DriverEvent × DriverState :=
  if s.running && s.registered && (t % 1440 == target) && (s.lastFiredDay != some (t / 1440)) then
    (DriverEvent.invoked t :: (if raises t then [DriverEvent.errorLogged t] else []),
     { s with lastFiredDay := some (t / 1440) })
  else ([], s)

/-- Modelled from the spec: the driver polling loop — one step per minute
(granularity 60 seconds, within the recommended tolerance), for `n`
consecutive minutes starting at minute `t0`, i.e. a period of continuous
running; `scheduler.py` is missing from the sources. -/
def driverRun (raises : Nat → Bool) (target : Nat) (s : DriverState) (t0 : Nat) :
    Nat → List DriverEvent × DriverState
  | 0 => ([], s)
  | n + 1 =>
    let st := driverStep raises target s t0
    let rest := driverRun raises target st.2 (t0 + 1) n
    (st.1 ++ rest.1, rest.2)

/-- The minutes at which the task's action was invoked in a driver trace. -/
def firedTimes (evs : List DriverEvent) : List Nat :=
  evs.filterMap (fun e => match e with | .invoked t => some t | _ => none)

/-- The due instants of a task with target minute-of-day `target` inside the
polling window `[t0, t0 + n)`: the minutes whose time-of-day matches. -/
def dueTimes (target t0 : Nat) : Nat → List Nat
  | 0 => []
  | n + 1 => (if t0 % 1440 == target then [t0] else []) ++ dueTimes target (t0 + 1) n

/-- The string the host splits into upload times: the value of
`ILIAS_DOWNLOADER_UPLOAD_TIMES` after `load_config`, i.e. the environment
value when set and non-empty, `"00:00"` otherwise. -/
def uploadTimesStr (env : String → Option String) : String :=
  match env "ILIAS_DOWNLOADER_UPLOAD_TIMES" with
  | some s => if s.isEmpty then "00:00" else s
  | none => "00:00"

/-- The scheduling tail of the host trace: the log line, the construction of
the `TimeScheduler`, one `add` per token, `start()`, and the indefinite wait. -/
def schedTail (tokens : List String) : List Event :=
  Event.logInfo ("Scheduling automatic downloads for " ++ toString tokens)
    :: Event.schedulerNew
    :: (tokens.map (fun t => Event.schedulerAdd t HostAction.downloadIliasData)
        ++ [Event.schedulerStart, Event.waitForever])

/-- Events of the scheduling phase of the host: scheduler construction,
task registration, `start()`, and the final indefinite wait. -/
def isSchedulingEvent : Event → Bool
  | .schedulerNew => true
  | .schedulerAdd _ _ => true
  | .schedulerStart => true
  | .waitForever => true
  | _ => false

/-! ## Driver lemmas -/

/-- Two distinct minutes with the same time-of-day lie on different days. -/
lemma match_day_ne (t0 t : Nat) (h1 : t0 < t) (h2 : t % 1440 = t0 % 1440) :
    t / 1440 ≠ t0 / 1440 := by
  have h3 := Nat.div_add_mod t 1440
  have h4 := Nat.div_add_mod t0 1440
  intro h
  omega

/-- A driver step never touches the `running` flag or the registration. -/
lemma driverStep_preserves (raises : Nat → Bool) (target : Nat) (s : DriverState) (t : Nat) :
    (driverStep raises target s t).2.running = s.running ∧
    (driverStep raises target s t).2.registered = s.registered := by
  unfold driverStep
  split <;> simp

/-- The driver loop never touches the `running` flag or the registration. -/
lemma driverRun_preserves (raises : Nat → Bool) (target : Nat) :
    ∀ (n t0 : Nat) (s : DriverState),
      (driverRun raises target s t0 n).2.running = s.running ∧
      (driverRun raises target s t0 n).2.registered = s.registered := by
  intro n
  induction n with
  | zero => intro t0 s; simp [driverRun]
  | succ n ih =>
    intro t0 s
    have hs := driverStep_preserves raises target s t0
    have hr := ih (t0 + 1) (driverStep raises target s t0).2
    simp only [driverRun]
    exact ⟨hr.1.trans hs.1, hr.2.trans hs.2⟩

/-- Function `firedTimes` distributes over concatenation. -/
lemma firedTimes_append (a b : List DriverEvent) :
    firedTimes (a ++ b) = firedTimes a ++ firedTimes b := by
  simp [firedTimes]

/-- Characterization of the invocation minutes of a driver run: starting from
a running, registered state whose last-fired day blocks no future matching
minute, the task is invoked exactly at the due instants of the window. -/
lemma driverRun_fires (raises : Nat → Bool) (target : Nat) :
    ∀ (n t0 : Nat) (s : DriverState),
      s.running = true → s.registered = true →
      (∀ t, t0 ≤ t → t % 1440 = target → s.lastFiredDay ≠ some (t / 1440)) →
      firedTimes (driverRun raises target s t0 n).1 = dueTimes target t0 n := by
  intro n
  induction n with
  | zero => intro t0 s _ _ _; simp [driverRun, dueTimes, firedTimes]
  | succ n ih =>
    intro t0 s hrun hreg hlast
    by_cases hm : t0 % 1440 = target
    · have hblock : s.lastFiredDay ≠ some (t0 / 1440) := hlast t0 (Nat.le_refl t0) hm
      have hcond : (s.running && s.registered && (t0 % 1440 == target)
          && (s.lastFiredDay != some (t0 / 1440))) = true := by
        simp [hrun, hreg, hm, bne_iff_ne, hblock]
      have hstep : driverStep raises target s t0 =
          (DriverEvent.invoked t0 :: (if raises t0 then [DriverEvent.errorLogged t0] else []),
           { s with lastFiredDay := some (t0 / 1440) }) := by
        unfold driverStep
        rw [if_pos hcond]
      have hlast' : ∀ t, t0 + 1 ≤ t → t % 1440 = target →
          ({ s with lastFiredDay := some (t0 / 1440) } : DriverState).lastFiredDay
            ≠ some (t / 1440) := by
        intro t ht htm
        simp only []
        intro hEq
        have : t / 1440 = t0 / 1440 := by
          exact Option.some_injective _ hEq.symm
        exact match_day_ne t0 t (by omega) (by rw [htm, hm]) this
      have hrest := ih (t0 + 1) { s with lastFiredDay := some (t0 / 1440) }
        (by simpa using hrun) (by simpa using hreg) hlast'
      simp only [driverRun, hstep, firedTimes_append]
      rw [hrest]
      have herr : firedTimes (if raises t0 then [DriverEvent.errorLogged t0] else []) = [] := by
        split <;> simp [firedTimes]
      simp [firedTimes, herr, dueTimes, hm]
    · have hcond : (s.running && s.registered && (t0 % 1440 == target)
          && (s.lastFiredDay != some (t0 / 1440))) = false := by
        simp [hm]
      have hstep : driverStep raises target s t0 = ([], s) := by
        unfold driverStep
        rw [if_neg (by simp [hcond])]
      have hrest := ih (t0 + 1) s hrun hreg (fun t ht htm => hlast t (by omega) htm)
      have hnil : firedTimes ([] : List DriverEvent) = [] := rfl
      simp only [driverRun, hstep, firedTimes_append, hnil, List.nil_append, hrest, dueTimes]
      rw [if_neg (by simp [hm]), List.nil_append]

/-- Membership in the due instants of a window. -/
lemma dueTimes_mem (target : Nat) :
    ∀ (n t0 t : Nat), t ∈ dueTimes target t0 n ↔ (t0 ≤ t ∧ t < t0 + n ∧ t % 1440 = target) := by
  intro n
  induction n with
  | zero => intro t0 t; simp [dueTimes]; omega
  | succ n ih =>
    intro t0 t
    simp only [dueTimes, List.mem_append, ih]
    by_cases hm : t0 % 1440 = target
    · simp only [hm, beq_self_eq_true, if_true, List.singleton_append, List.mem_cons,
        List.not_mem_nil, or_false]
      constructor
      · rintro (h | ⟨h1, h2, h3⟩)
        · exact ⟨by omega, by omega, by rw [h]; exact hm⟩
        · exact ⟨by omega, by omega, h3⟩
      · rintro ⟨h1, h2, h3⟩
        by_cases he : t = t0
        · exact Or.inl he
        · exact Or.inr ⟨by omega, by omega, h3⟩
    · rw [if_neg (by simp [hm])]
      simp only [List.not_mem_nil, false_or]
      constructor
      · rintro ⟨h1, h2, h3⟩
        exact ⟨by omega, by omega, h3⟩
      · rintro ⟨h1, h2, h3⟩
        refine ⟨?_, by omega, h3⟩
        by_cases he : t = t0
        · exact absurd (by rw [← he]; exact h3) hm
        · omega

/-- The due instants of a window form a duplicate-free list. -/
lemma dueTimes_nodup (target : Nat) :
    ∀ (n t0 : Nat), (dueTimes target t0 n).Nodup := by
  intro n
  induction n with
  | zero => intro t0; simp [dueTimes]
  | succ n ih =>
    intro t0
    by_cases hm : t0 % 1440 = target
    · simp only [dueTimes, hm, beq_self_eq_true, if_true, List.singleton_append,
        List.nodup_cons]
      refine ⟨fun hmem => ?_, ih (t0 + 1)⟩
      have := (dueTimes_mem target n (t0 + 1) t0).mp hmem
      omega
    · simp only [dueTimes]
      rw [if_neg (by simp [hm]), List.nil_append]
      exact ih (t0 + 1)

/-- A duplicate-free list all of whose members equal `c` has at most one
element. -/
lemma length_le_one_of_nodup_const {l : List Nat} {c : Nat}
    (hnd : l.Nodup) (hc : ∀ x ∈ l, x = c) : l.length ≤ 1 := by
  match l with
  | [] => simp
  | [_] => simp
  | x :: y :: rest =>
    exfalso
    have hx := hc x (by simp)
    have hy := hc y (by simp)
    rw [List.nodup_cons] at hnd
    exact hnd.1 (by simp [hx, hy])

/-- At most one due instant of a window lies on any given calendar day. -/
lemma dueTimes_day_filter (target t0 n d : Nat) :
    ((dueTimes target t0 n).filter (fun t => t / 1440 == d)).length ≤ 1 := by
  apply length_le_one_of_nodup_const (c := 1440 * d + target)
  · exact (dueTimes_nodup target n t0).filter _
  · intro x hx
    rw [List.mem_filter] at hx
    have h1 := (dueTimes_mem target n t0 x).mp hx.1
    have h2 : x / 1440 = d := by simpa using hx.2
    have h3 := Nat.div_add_mod x 1440
    omega

/-- An exception report appears in a driver trace exactly at the invocation
minutes whose action raises. -/
lemma driverRun_error_iff (raises : Nat → Bool) (target : Nat) :
    ∀ (n t0 : Nat) (s : DriverState) (u : Nat),
      DriverEvent.errorLogged u ∈ (driverRun raises target s t0 n).1 ↔
        (DriverEvent.invoked u ∈ (driverRun raises target s t0 n).1 ∧ raises u = true) := by
  intro n
  induction n with
  | zero => intro t0 s u; simp [driverRun]
  | succ n ih =>
    intro t0 s u
    simp only [driverRun, List.mem_append, ih]
    unfold driverStep
    split
    · by_cases hr : raises t0
      · by_cases hu : u = t0
        · subst hu; simp [hr]
        · simp only [hr, if_true, List.mem_cons, List.not_mem_nil, or_false,
            DriverEvent.errorLogged.injEq, DriverEvent.invoked.injEq]
          simp only [show (DriverEvent.errorLogged u = DriverEvent.invoked t0) = False by
            simp, show (DriverEvent.invoked u = DriverEvent.errorLogged t0) = False by
            simp, hu]
          tauto
      · by_cases hu : u = t0
        · subst hu; simp [hr]
        · simp only [hr, if_false, List.mem_cons, List.not_mem_nil, or_false,
            DriverEvent.invoked.injEq]
          simp only [show (DriverEvent.errorLogged u = DriverEvent.invoked t0) = False by
            simp, hu]
          tauto
    · simp

/-! ## Claim theorems: the scheduler component (spec-modelled) -/

/-- Claim C1:  For every registered task and every occurrence of its time-of-day
while the TimeScheduler is running, the scheduler fires the task at most once
per occurrence of that time-of-day (at most one invocation per calendar day),
and at least once per calendar day during which the scheduler is continuously
running past that time; every invocation on a day happens exactly at that
day's due instant, i.e. within a tolerance of zero, below the one-minute
polling granularity of the model. -/
theorem scheduler_fires_exactly_once_daily (raises : Nat → Bool) (target t0 n d : Nat)
    (htarget : target < 1440) :
    ((firedTimes (driverRun raises target initialDriverState t0 n).1).filter
        (fun t => t / 1440 == d)).length ≤ 1 ∧
    (t0 ≤ 1440 * d + target → 1440 * d + target < t0 + n →
      (1440 * d + target) ∈ firedTimes (driverRun raises target initialDriverState t0 n).1) ∧
    (∀ t ∈ firedTimes (driverRun raises target initialDriverState t0 n).1,
      t / 1440 = d → t = 1440 * d + target) := by
  have hfires := driverRun_fires raises target n t0 initialDriverState rfl rfl
    (fun t _ _ => by simp [initialDriverState])
  rw [hfires]
  refine ⟨dueTimes_day_filter target t0 n d, ?_, ?_⟩
  · intro h1 h2
    rw [dueTimes_mem]
    exact ⟨h1, h2, by omega⟩
  · intro t htm hd
    have hmem := (dueTimes_mem target n t0 t).mp htm
    have h3 := Nat.div_add_mod t 1440
    omega

/-- Witness for C1: one task at minute-of-day 2 (time 00:02), polling the
five minutes 1..5 of day 0; it fires exactly at minute 2 and only once. -/
theorem scheduler_fires_exactly_once_daily_witness :
    (2 : Nat) < 1440 ∧
    ((firedTimes (driverRun (fun _ => false) 2 initialDriverState 1 5).1).filter
        (fun t => t / 1440 == 0)).length ≤ 1 ∧
    (1440 * 0 + 2) ∈ firedTimes (driverRun (fun _ => false) 2 initialDriverState 1 5).1 := by
  refine ⟨by decide, ?_, ?_⟩
  · exact (scheduler_fires_exactly_once_daily (fun _ => false) 2 1 5 0 (by decide)).1
  · exact (scheduler_fires_exactly_once_daily (fun _ => false) 2 1 5 0 (by decide)).2.1
      (by decide) (by decide)

/-- Claim C7:  If a task's action raises during an invocation, the driver
catches it at the call site and reports it via the logging hook (an
`errorLogged` event appears exactly at the raising invocations), the driver
loop is not terminated and the task is not deregistered (`running` and
`registered` still hold after any run), and the task's subsequent occurrences
fire exactly as they would had every action completed normally (the
invocation minutes coincide with those of the never-raising run). -/
theorem scheduler_action_failure_contained (raises : Nat → Bool) (target t0 n : Nat) :
    firedTimes (driverRun raises target initialDriverState t0 n).1 =
      firedTimes (driverRun (fun _ => false) target initialDriverState t0 n).1 ∧
    (∀ u, DriverEvent.errorLogged u ∈ (driverRun raises target initialDriverState t0 n).1 ↔
      (DriverEvent.invoked u ∈ (driverRun raises target initialDriverState t0 n).1 ∧
        raises u = true)) ∧
    (driverRun raises target initialDriverState t0 n).2.running = true ∧
    (driverRun raises target initialDriverState t0 n).2.registered = true := by
  have h1 := driverRun_fires raises target n t0 initialDriverState rfl rfl
    (fun t _ _ => by simp [initialDriverState])
  have h2 := driverRun_fires (fun _ => false) target n t0 initialDriverState rfl rfl
    (fun t _ _ => by simp [initialDriverState])
  have h3 := driverRun_preserves raises target n t0 initialDriverState
  exact ⟨h1.trans h2.symm,
    fun u => driverRun_error_iff raises target n t0 initialDriverState u,
    h3.1, h3.2⟩

/-- Claim C6:  For every invalid time string (wrong shape, non-digits, hour
outside 0-23 or minute outside 0-59 — invalidity expressed as failure of
`parseTimeOfDay`), `add()` fails with a `ConfigurationError`, no task is
registered and the driver is not started: the call returns no successor
scheduler state at all, so the registry and the `running` flag are those of
the untouched receiver. -/
theorem add_rejects_invalid_time (timeOfDay : String)
    (hinvalid : parseTimeOfDay timeOfDay = none)
    (ts : TimeScheduler) (action : HostAction) :
    ts.add timeOfDay action = Except.error (ConfigurationError.invalidTimeOfDay timeOfDay) ∧
    (∀ ts' : TimeScheduler, ts.add timeOfDay action ≠ Except.ok ts') := by
  unfold TimeScheduler.add
  rw [hinvalid]
  exact ⟨rfl, fun ts' h => by cases h⟩

/-- Witness for C6: `"25:61"` (out-of-range fields) and `"noon"` (not of the
form `HH:MM`) are both rejected by `add` on the fresh scheduler. -/
theorem add_rejects_invalid_time_witness :
    parseTimeOfDay "25:61" = none ∧ parseTimeOfDay "noon" = none ∧
    ({ } : TimeScheduler).add "25:61" HostAction.downloadIliasData
      = Except.error (ConfigurationError.invalidTimeOfDay "25:61") ∧
    ({ } : TimeScheduler).add "noon" HostAction.downloadIliasData
      = Except.error (ConfigurationError.invalidTimeOfDay "noon") := by
  refine ⟨by decide, by decide, ?_, ?_⟩
  · exact (add_rejects_invalid_time "25:61" (by decide) { } HostAction.downloadIliasData).1
  · exact (add_rejects_invalid_time "noon" (by decide) { } HostAction.downloadIliasData).1

/-! ## Host-program lemmas -/

/-- Looking up any key of the `key_defaults` table in the loaded config gives
`os.getenv(key) or default`. -/
lemma cfgGet_load_config (env : String → Option String) (key : String) (default : PyVal)
    (hmem : (key, default) ∈ keyDefaults) :
    cfgGet (load_config env) key = envOr env key default := by
  simp only [keyDefaults, List.mem_cons, List.not_mem_nil, or_false, Prod.mk.injEq] at hmem
  rcases hmem with h | h | h | h | h | h | h | h | h | h <;>
    obtain ⟨rfl, rfl⟩ := h <;> rfl

/-- The upload-times config entry is always a string, namely
`uploadTimesStr env`. -/
lemma upload_times_vStr (env : String → Option String) :
    cfgGet (load_config env) "ILIAS_DOWNLOADER_UPLOAD_TIMES"
      = PyVal.vStr (uploadTimesStr env) := by
  show envOr env "ILIAS_DOWNLOADER_UPLOAD_TIMES" (.vStr "00:00") = _
  unfold envOr uploadTimesStr
  cases env "ILIAS_DOWNLOADER_UPLOAD_TIMES" with
  | none => rfl
  | some s => by_cases h : s.isEmpty <;> simp [h]

/-- Closed form of the `download_ilias_data` trace: on return code 0 the
download is followed by the upload call and its events, otherwise the
function raises after running the command. -/
lemma download_ilias_data_eq (cfg : List (String × PyVal)) (u : Bool) (dlRc upRc : Int) :
    download_ilias_data cfg u dlRc upRc =
      if dlRc = 0 then
        ([Event.downloadCall, Event.logInfo "Starting ilias download...",
          Event.runShell (downloadCommand cfg u),
          Event.logInfo "Download from ilias completed. Starting upload to the cloud...",
          Event.uploadCall "output" (cfgGet cfg "ILIAS_DOWNLOADER_CLOUD_OUTPUT_PATH").fstr,
          Event.runShell (uploadCommand cfg "output"
            (cfgGet cfg "ILIAS_DOWNLOADER_CLOUD_OUTPUT_PATH").fstr),
          Event.logInfo "Cloud upload completed."], none)
      else
        ([Event.downloadCall, Event.logInfo "Starting ilias download...",
          Event.runShell (downloadCommand cfg u)], some downloadErrMsg) := by
  unfold download_ilias_data
  split <;> rfl

/-- Shape of the host trace when credentials are present, setup completes and
the first-run download (if any) succeeds: preliminary events, setup, the
optional first-run download, then the scheduling tail; no exception. -/
lemma mainProgram_shape (env : String → Option String)
    (dataExists outputExists unixLike : Bool) (dlRc upRc : Int)
    (hu : pyTruthy (cfgGet (load_config env) "ILIAS_DOWNLOADER_USER_NAME") = true)
    (hp : pyTruthy (cfgGet (load_config env) "ILIAS_DOWNLOADER_PASSWORD") = true)
    (hdl : outputExists = true ∨ dlRc = 0) :
    mainProgram env dataExists outputExists unixLike true dlRc upRc =
      ((if dataExists then [] else [Event.madeDataDir])
        ++ [Event.setupIliasDownloader, Event.setupRclone]
        ++ (if outputExists then []
            else (download_ilias_data (load_config env) unixLike dlRc upRc).1)
        ++ schedTail (pySplit (uploadTimesStr env)), none) := by
  have hut := upload_times_vStr env
  by_cases ho : outputExists = true
  · subst ho
    simp [mainProgram, hu, hp, hut, schedTail]
  · have ho' : outputExists = false := by revert ho; cases outputExists <;> simp
    subst ho'
    have hrc : dlRc = 0 := by tauto
    subst hrc
    have hsnd : (download_ilias_data (load_config env) unixLike 0 upRc).2 = none := by
      rw [download_ilias_data_eq]
      simp
    simp [mainProgram, hu, hp, hut, hsnd, schedTail]

/-- No event of the `download_ilias_data` trace belongs to the scheduling
phase. -/
lemma download_trace_not_scheduling (cfg : List (String × PyVal)) (u : Bool) (dlRc upRc : Int) :
    ∀ e ∈ (download_ilias_data cfg u dlRc upRc).1, isSchedulingEvent e = false := by
  rw [download_ilias_data_eq]
  split
  · intro e he
    simp at he
    rcases he with rfl | rfl | rfl | rfl | rfl | rfl | rfl <;> rfl
  · intro e he
    simp at he
    rcases he with rfl | rfl | rfl <;> rfl

/-- No event preceding the scheduling tail of the successful host trace
belongs to the scheduling phase. -/
lemma mainPre_not_scheduling (env : String → Option String)
    (dataExists outputExists unixLike : Bool) (dlRc upRc : Int) :
    ∀ e ∈ ((if dataExists then [] else [Event.madeDataDir])
        ++ [Event.setupIliasDownloader, Event.setupRclone]
        ++ (if outputExists then []
            else (download_ilias_data (load_config env) unixLike dlRc upRc).1)
        ++ [Event.logInfo ("Scheduling automatic downloads for "
              ++ toString (pySplit (uploadTimesStr env)))]),
      isSchedulingEvent e = false := by
  intro e he
  simp only [List.mem_append, List.mem_cons, List.not_mem_nil, or_false] at he
  rcases he with ((he | he) | he) | he
  · by_cases hd : dataExists
    · rw [if_pos hd] at he; exact absurd he (List.not_mem_nil e)
    · rw [if_neg hd] at he
      simp at he; subst he; rfl
  · rcases he with rfl | rfl <;> rfl
  · by_cases ho : outputExists
    · rw [if_pos ho] at he; exact absurd he (List.not_mem_nil e)
    · rw [if_neg ho] at he
      exact download_trace_not_scheduling (load_config env) unixLike dlRc upRc e he
  · subst he; rfl

/-! ## Claim theorems: the host program -/

/-- Claim C2:  After configuration loading and setup succeed (credentials
truthy, interactive setup completes, and the first-run download — performed
only when `output` is missing — succeeds), the host trace ends with exactly
one `TimeScheduler` construction, the task registrations, exactly one
`start()`, and the indefinite block, in that order; no scheduling-phase
event occurs anywhere earlier, no event at all follows the wait, and the
program does not raise. -/
theorem mainHost_constructs_starts_blocks (env : String → Option String)
    (dataExists outputExists unixLike : Bool) (dlRc upRc : Int)
    (hu : pyTruthy (cfgGet (load_config env) "ILIAS_DOWNLOADER_USER_NAME") = true)
    (hp : pyTruthy (cfgGet (load_config env) "ILIAS_DOWNLOADER_PASSWORD") = true)
    (hdl : outputExists = true ∨ dlRc = 0) :
    ∃ pre, mainProgram env dataExists outputExists unixLike true dlRc upRc =
        (pre ++ Event.schedulerNew
          :: ((pySplit (uploadTimesStr env)).map
                (fun t => Event.schedulerAdd t HostAction.downloadIliasData)
              ++ [Event.schedulerStart, Event.waitForever]), none) ∧
      ∀ e ∈ pre, isSchedulingEvent e = false := by
  refine ⟨(if dataExists then [] else [Event.madeDataDir])
      ++ [Event.setupIliasDownloader, Event.setupRclone]
      ++ (if outputExists then []
          else (download_ilias_data (load_config env) unixLike dlRc upRc).1)
      ++ [Event.logInfo ("Scheduling automatic downloads for "
            ++ toString (pySplit (uploadTimesStr env)))], ?_, ?_⟩
  · rw [mainProgram_shape env dataExists outputExists unixLike dlRc upRc hu hp hdl]
    simp [schedTail]
  · exact mainPre_not_scheduling env dataExists outputExists unixLike dlRc upRc

/-- Witness for C2: no environment except credentials, `./data` and `output`
both present; the trace is explicit and ends in construct/add/start/wait. -/
theorem mainHost_constructs_starts_blocks_witness :
    ∃ pre, mainProgram
        (fun k => if k = "ILIAS_DOWNLOADER_USER_NAME" then some "u"
                  else if k = "ILIAS_DOWNLOADER_PASSWORD" then some "p" else none)
        true true true true 0 0 =
        (pre ++ Event.schedulerNew
          :: ((pySplit (uploadTimesStr
                (fun k => if k = "ILIAS_DOWNLOADER_USER_NAME" then some "u"
                          else if k = "ILIAS_DOWNLOADER_PASSWORD" then some "p" else none))).map
                (fun t => Event.schedulerAdd t HostAction.downloadIliasData)
              ++ [Event.schedulerStart, Event.waitForever]), none) ∧
      ∀ e ∈ pre, isSchedulingEvent e = false :=
  mainHost_constructs_starts_blocks
    (fun k => if k = "ILIAS_DOWNLOADER_USER_NAME" then some "u"
              else if k = "ILIAS_DOWNLOADER_PASSWORD" then some "p" else none)
    true true true 0 0 (by decide) (by decide) (Or.inl rfl)

/-- Claim C3:  The host registers, via `add()`, exactly one task per
whitespace-separated token of the `ILIAS_DOWNLOADER_UPLOAD_TIMES`
configuration string (in order, each pairing the token with the
`download_ilias_data` action), and every registration occurs before the
single `start()` call. -/
theorem mainHost_registers_each_token (env : String → Option String)
    (dataExists outputExists unixLike : Bool) (dlRc upRc : Int)
    (hu : pyTruthy (cfgGet (load_config env) "ILIAS_DOWNLOADER_USER_NAME") = true)
    (hp : pyTruthy (cfgGet (load_config env) "ILIAS_DOWNLOADER_PASSWORD") = true)
    (hdl : outputExists = true ∨ dlRc = 0) :
    cfgGet (load_config env) "ILIAS_DOWNLOADER_UPLOAD_TIMES"
        = PyVal.vStr (uploadTimesStr env) ∧
    ∃ l1, (mainProgram env dataExists outputExists unixLike true dlRc upRc).1 =
        l1 ++ (pySplit (uploadTimesStr env)).map
                (fun t => Event.schedulerAdd t HostAction.downloadIliasData)
          ++ [Event.schedulerStart, Event.waitForever] ∧
      (∀ t a, Event.schedulerAdd t a ∉ l1) ∧ Event.schedulerStart ∉ l1 := by
  refine ⟨upload_times_vStr env, ?_⟩
  refine ⟨(if dataExists then [] else [Event.madeDataDir])
      ++ [Event.setupIliasDownloader, Event.setupRclone]
      ++ (if outputExists then []
          else (download_ilias_data (load_config env) unixLike dlRc upRc).1)
      ++ [Event.logInfo ("Scheduling automatic downloads for "
            ++ toString (pySplit (uploadTimesStr env)))]
      ++ [Event.schedulerNew], ?_, ?_, ?_⟩
  · rw [mainProgram_shape env dataExists outputExists unixLike dlRc upRc hu hp hdl]
    simp [schedTail]
  · intro t a hmem
    rcases List.mem_append.mp hmem with h | h
    · have := mainPre_not_scheduling env dataExists outputExists unixLike dlRc upRc
        (Event.schedulerAdd t a) h
      simp [isSchedulingEvent] at this
    · simp at h
  · intro hmem
    rcases List.mem_append.mp hmem with h | h
    · have := mainPre_not_scheduling env dataExists outputExists unixLike dlRc upRc
        Event.schedulerStart h
      simp [isSchedulingEvent] at this
    · simp at h

/-- Witness for C3: two configured times `08:00` and `20:30`; the add events
are one per token, before `start()`. -/
theorem mainHost_registers_each_token_witness :
    cfgGet (load_config (fun _ => some "08:00 20:30")) "ILIAS_DOWNLOADER_UPLOAD_TIMES"
        = PyVal.vStr (uploadTimesStr (fun _ => some "08:00 20:30")) ∧
    ∃ l1, (mainProgram (fun _ => some "08:00 20:30") true true true true 0 0).1 =
        l1 ++ (pySplit (uploadTimesStr (fun _ => some "08:00 20:30"))).map
                (fun t => Event.schedulerAdd t HostAction.downloadIliasData)
          ++ [Event.schedulerStart, Event.waitForever] ∧
      (∀ t a, Event.schedulerAdd t a ∉ l1) ∧ Event.schedulerStart ∉ l1 :=
  mainHost_registers_each_token (fun _ => some "08:00 20:30") true true true 0 0
    (by decide) (by decide) (Or.inl rfl)

/-- Shape of the host trace when credentials are present, setup completes,
`output` is missing and the first-run download fails: the exception
propagates out of the host after the download events; no scheduler call is
ever made. -/
lemma mainProgram_shape_dlfail (env : String → Option String)
    (dataExists unixLike : Bool) (dlRc upRc : Int)
    (hu : pyTruthy (cfgGet (load_config env) "ILIAS_DOWNLOADER_USER_NAME") = true)
    (hp : pyTruthy (cfgGet (load_config env) "ILIAS_DOWNLOADER_PASSWORD") = true)
    (hrc : dlRc ≠ 0) :
    mainProgram env dataExists false unixLike true dlRc upRc =
      ((if dataExists then [] else [Event.madeDataDir])
        ++ [Event.setupIliasDownloader, Event.setupRclone]
        ++ [Event.downloadCall, Event.logInfo "Starting ilias download...",
            Event.runShell (downloadCommand (load_config env) unixLike)],
       some downloadErrMsg) := by
  have hd := download_ilias_data_eq (load_config env) unixLike dlRc upRc
  rw [if_neg hrc] at hd
  simp [mainProgram, hu, hp, hd]

/-- Claim C4:  With credentials set and setup complete, the host calls
`download_ilias_data` immediately on startup if and only if the path
`output` does not exist; when it does call it, the call happens exactly once
and strictly before any scheduler construction, task registration or
`start()`. -/
theorem mainHost_first_run_download_iff (env : String → Option String)
    (dataExists outputExists unixLike : Bool) (dlRc upRc : Int)
    (hu : pyTruthy (cfgGet (load_config env) "ILIAS_DOWNLOADER_USER_NAME") = true)
    (hp : pyTruthy (cfgGet (load_config env) "ILIAS_DOWNLOADER_PASSWORD") = true) :
    (outputExists = true →
      Event.downloadCall ∉ (mainProgram env dataExists outputExists unixLike true dlRc upRc).1) ∧
    (outputExists = false →
      ∃ l1 l2, (mainProgram env dataExists outputExists unixLike true dlRc upRc).1
          = l1 ++ Event.downloadCall :: l2 ∧
        Event.downloadCall ∉ l1 ∧ Event.downloadCall ∉ l2 ∧
        (∀ t a, Event.schedulerAdd t a ∉ l1) ∧
        Event.schedulerNew ∉ l1 ∧ Event.schedulerStart ∉ l1) := by
  constructor
  · intro ho
    subst ho
    rw [mainProgram_shape env dataExists true unixLike dlRc upRc hu hp (Or.inl rfl)]
    simp [schedTail]
  · intro ho
    subst ho
    by_cases hrc : dlRc = 0
    · refine ⟨(if dataExists then [] else [Event.madeDataDir])
          ++ [Event.setupIliasDownloader, Event.setupRclone],
        [Event.logInfo "Starting ilias download...",
         Event.runShell (downloadCommand (load_config env) unixLike),
         Event.logInfo "Download from ilias completed. Starting upload to the cloud...",
         Event.uploadCall "output"
           (cfgGet (load_config env) "ILIAS_DOWNLOADER_CLOUD_OUTPUT_PATH").fstr,
         Event.runShell (uploadCommand (load_config env) "output"
           (cfgGet (load_config env) "ILIAS_DOWNLOADER_CLOUD_OUTPUT_PATH").fstr),
         Event.logInfo "Cloud upload completed."]
          ++ schedTail (pySplit (uploadTimesStr env)), ?_, ?_, ?_, ?_, ?_, ?_⟩
      · rw [mainProgram_shape env dataExists false unixLike dlRc upRc hu hp (Or.inr hrc)]
        have hd := download_ilias_data_eq (load_config env) unixLike dlRc upRc
        rw [if_pos hrc] at hd
        simp [hd]
      · by_cases hd : dataExists <;> simp [hd]
      · simp [schedTail]
      · intro t a
        by_cases hd : dataExists <;> simp [hd]
      · by_cases hd : dataExists <;> simp [hd]
      · by_cases hd : dataExists <;> simp [hd]
    · refine ⟨(if dataExists then [] else [Event.madeDataDir])
          ++ [Event.setupIliasDownloader, Event.setupRclone],
        [Event.logInfo "Starting ilias download...",
         Event.runShell (downloadCommand (load_config env) unixLike)], ?_, ?_, ?_, ?_, ?_, ?_⟩
      · rw [mainProgram_shape_dlfail env dataExists unixLike dlRc upRc hu hp hrc]
      · by_cases hd : dataExists <;> simp [hd]
      · simp
      · intro t a
        by_cases hd : dataExists <;> simp [hd]
      · by_cases hd : dataExists <;> simp [hd]
      · by_cases hd : dataExists <;> simp [hd]

/-- Witness for C4: with `output` present no download call occurs; with
`output` missing the download call occurs before the scheduling phase. -/
theorem mainHost_first_run_download_iff_witness :
    (Event.downloadCall ∉ (mainProgram (fun _ => some "x") true true true true 0 0).1) ∧
    (∃ l1 l2, (mainProgram (fun _ => some "x") true false true true 0 0).1
        = l1 ++ Event.downloadCall :: l2 ∧
      Event.downloadCall ∉ l1 ∧ Event.downloadCall ∉ l2 ∧
      (∀ t a, Event.schedulerAdd t a ∉ l1) ∧
      Event.schedulerNew ∉ l1 ∧ Event.schedulerStart ∉ l1) :=
  ⟨(mainHost_first_run_download_iff (fun _ => some "x") true true true 0 0
      (by decide) (by decide)).1 rfl,
   (mainHost_first_run_download_iff (fun _ => some "x") true false true 0 0
      (by decide) (by decide)).2 rfl⟩

/-- Claim C9:  If the user name or the password resolves to a falsy value, the
host only logs the corresponding error and terminates the startup branch
normally: the trace consists of the preliminary events plus that one error
log, the program raises nothing, and no setup, download or scheduler call
ever occurs. -/
theorem mainHost_missing_credentials_only_logs (env : String → Option String)
    (dataExists outputExists unixLike setupOk : Bool) (dlRc upRc : Int)
    (hcred : pyTruthy (cfgGet (load_config env) "ILIAS_DOWNLOADER_USER_NAME") = false ∨
      (pyTruthy (cfgGet (load_config env) "ILIAS_DOWNLOADER_USER_NAME") = true ∧
       pyTruthy (cfgGet (load_config env) "ILIAS_DOWNLOADER_PASSWORD") = false)) :
    ∃ msg, (msg = "The Ilias username has not been set" ∨
        msg = "The Ilias password has not been set") ∧
      mainProgram env dataExists outputExists unixLike setupOk dlRc upRc =
        ((if dataExists then [] else [Event.madeDataDir]) ++ [Event.logError msg], none) ∧
      Event.setupIliasDownloader ∉ (mainProgram env dataExists outputExists unixLike setupOk dlRc upRc).1 ∧
      Event.setupRclone ∉ (mainProgram env dataExists outputExists unixLike setupOk dlRc upRc).1 ∧
      Event.downloadCall ∉ (mainProgram env dataExists outputExists unixLike setupOk dlRc upRc).1 ∧
      Event.schedulerNew ∉ (mainProgram env dataExists outputExists unixLike setupOk dlRc upRc).1 ∧
      Event.schedulerStart ∉ (mainProgram env dataExists outputExists unixLike setupOk dlRc upRc).1 := by
  rcases hcred with hu | ⟨hu, hp⟩
  · refine ⟨"The Ilias username has not been set", Or.inl rfl, ?_⟩
    have heq : mainProgram env dataExists outputExists unixLike setupOk dlRc upRc =
        ((if dataExists then [] else [Event.madeDataDir])
          ++ [Event.logError "The Ilias username has not been set"], none) := by
      simp [mainProgram, hu]
    rw [heq]
    refine ⟨rfl, ?_, ?_, ?_, ?_, ?_⟩ <;> by_cases hd : dataExists <;> simp [hd]
  · refine ⟨"The Ilias password has not been set", Or.inr rfl, ?_⟩
    have heq : mainProgram env dataExists outputExists unixLike setupOk dlRc upRc =
        ((if dataExists then [] else [Event.madeDataDir])
          ++ [Event.logError "The Ilias password has not been set"], none) := by
      simp [mainProgram, hu, hp]
    rw [heq]
    refine ⟨rfl, ?_, ?_, ?_, ?_, ?_⟩ <;> by_cases hd : dataExists <;> simp [hd]

/-- Witness for C9: with an entirely unset environment the user name is
falsy; only the username error is logged. -/
theorem mainHost_missing_credentials_only_logs_witness :
    ∃ msg, (msg = "The Ilias username has not been set" ∨
        msg = "The Ilias password has not been set") ∧
      mainProgram (fun _ => none) true true true true 0 0 =
        ((if true then [] else [Event.madeDataDir]) ++ [Event.logError msg], none) ∧
      Event.setupIliasDownloader ∉ (mainProgram (fun _ => none) true true true true 0 0).1 ∧
      Event.setupRclone ∉ (mainProgram (fun _ => none) true true true true 0 0).1 ∧
      Event.downloadCall ∉ (mainProgram (fun _ => none) true true true true 0 0).1 ∧
      Event.schedulerNew ∉ (mainProgram (fun _ => none) true true true true 0 0).1 ∧
      Event.schedulerStart ∉ (mainProgram (fun _ => none) true true true true 0 0).1 :=
  mainHost_missing_credentials_only_logs (fun _ => none) true true true true 0 0
    (Or.inl (by decide))

/-- Claim C8:  `load_config` returns the environment value for a key exactly
when the variable is set to a non-empty string, and the `key_defaults`
default otherwise (so a variable set to the empty string yields the
default); with no environment set the listed defaults result, and splitting
the default upload times would schedule exactly one task at `"00:00"`. -/
theorem load_config_env_or_default (env : String → Option String)
    (key : String) (default : PyVal) (hmem : (key, default) ∈ keyDefaults) :
    (∀ s, env key = some s → s ≠ "" → cfgGet (load_config env) key = PyVal.vStr s) ∧
    ((env key = none ∨ env key = some "") → cfgGet (load_config env) key = default) ∧
    cfgGet (load_config (fun _ => none)) "ILIAS_DOWNLOADER_USER_NAME" = PyVal.vNone ∧
    cfgGet (load_config (fun _ => none)) "ILIAS_DOWNLOADER_PASSWORD" = PyVal.vNone ∧
    cfgGet (load_config (fun _ => none)) "ILIAS_DOWNLOADER_SYNC_URL" = PyVal.vNone ∧
    cfgGet (load_config (fun _ => none)) "ILIAS_DOWNLOADER_CLIENT_ID" = PyVal.vNone ∧
    cfgGet (load_config (fun _ => none)) "ILIAS_DOWNLOADER_CLIENT_SECRET" = PyVal.vNone ∧
    cfgGet (load_config (fun _ => none)) "ILIAS_DOWNLOADER_CLOUD_OUTPUT_PATH"
      = PyVal.vStr "output" ∧
    cfgGet (load_config (fun _ => none)) "ILIAS_DOWNLOADER_UPLOAD_TIMES"
      = PyVal.vStr "00:00" ∧
    (pySplit (uploadTimesStr (fun _ => none))).map
        (fun t => Event.schedulerAdd t HostAction.downloadIliasData)
      = [Event.schedulerAdd "00:00" HostAction.downloadIliasData] := by
  have hbase := cfgGet_load_config env key default hmem
  refine ⟨?_, ?_, rfl, rfl, rfl, rfl, rfl, rfl, rfl, by decide⟩
  · intro s hs hne
    rw [hbase]
    unfold envOr
    rw [hs]
    show (if s.isEmpty = true then default else PyVal.vStr s) = PyVal.vStr s
    rw [if_neg (fun h => hne ((String.isEmpty_iff s).mp h))]
  · rintro (h | h)
    · rw [hbase]
      simp [envOr, h]
    · rw [hbase]
      unfold envOr
      rw [h]
      show (if ("" : String).isEmpty = true then default else PyVal.vStr "") = default
      rw [if_pos (show ("" : String).isEmpty = true from rfl)]

/-- Witness for C8: a variable set non-empty is returned, a variable set to
the empty string falls back to the default, an unset variable falls back to
the default. -/
theorem load_config_env_or_default_witness :
    cfgGet (load_config (fun _ => some "alice")) "ILIAS_DOWNLOADER_USER_NAME"
      = PyVal.vStr "alice" ∧
    cfgGet (load_config (fun _ => some "")) "ILIAS_DOWNLOADER_CLOUD_OUTPUT_PATH"
      = PyVal.vStr "output" ∧
    cfgGet (load_config (fun _ => none)) "ILIAS_DOWNLOADER_UPLOAD_TIMES"
      = PyVal.vStr "00:00" := by
  refine ⟨?_, ?_, ?_⟩
  · exact (load_config_env_or_default (fun _ => some "alice")
      "ILIAS_DOWNLOADER_USER_NAME" PyVal.vNone (by decide)).1 "alice" rfl (by decide)
  · exact (load_config_env_or_default (fun _ => some "")
      "ILIAS_DOWNLOADER_CLOUD_OUTPUT_PATH" (PyVal.vStr "output") (by decide)).2.1
      (Or.inr rfl)
  · exact (load_config_env_or_default (fun _ => none)
      "ILIAS_DOWNLOADER_UPLOAD_TIMES" (PyVal.vStr "00:00") (by decide)).2.1
      (Or.inl rfl)

/-- Claim C5:  `download_ilias_data` calls `upload_rclone("output",
cfg['ILIAS_DOWNLOADER_CLOUD_OUTPUT_PATH'])` if and only if the downloader
subprocess exits with return code 0; for every nonzero return code it raises
the exception and no upload call appears in the trace. -/
theorem download_upload_iff (cfg : List (String × PyVal)) (u : Bool) (dlRc upRc : Int) :
    (dlRc = 0 →
      (download_ilias_data cfg u dlRc upRc).2 = none ∧
      Event.uploadCall "output" (cfgGet cfg "ILIAS_DOWNLOADER_CLOUD_OUTPUT_PATH").fstr
        ∈ (download_ilias_data cfg u dlRc upRc).1) ∧
    (dlRc ≠ 0 →
      (download_ilias_data cfg u dlRc upRc).2 = some downloadErrMsg ∧
      ∀ lp rp, Event.uploadCall lp rp ∉ (download_ilias_data cfg u dlRc upRc).1) := by
  have hd := download_ilias_data_eq cfg u dlRc upRc
  constructor
  · intro h
    rw [if_pos h] at hd
    rw [hd]
    exact ⟨rfl, by simp⟩
  · intro h
    rw [if_neg h] at hd
    rw [hd]
    exact ⟨rfl, fun lp rp => by simp⟩

/-- Witness for C5: on return code 0 the upload call is in the trace and
nothing is raised; on return code 1 the exception is raised and no upload
call occurs. -/
theorem download_upload_iff_witness :
    ((download_ilias_data (load_config (fun _ => none)) true 0 0).2 = none ∧
      Event.uploadCall "output"
        (cfgGet (load_config (fun _ => none)) "ILIAS_DOWNLOADER_CLOUD_OUTPUT_PATH").fstr
        ∈ (download_ilias_data (load_config (fun _ => none)) true 0 0).1) ∧
    ((download_ilias_data (load_config (fun _ => none)) true 1 0).2 = some downloadErrMsg ∧
      ∀ lp rp, Event.uploadCall lp rp
        ∉ (download_ilias_data (load_config (fun _ => none)) true 1 0).1) :=
  ⟨(download_upload_iff (load_config (fun _ => none)) true 0 0).1 rfl,
   (download_upload_iff (load_config (fun _ => none)) true 1 0).2 (by decide)⟩

/-- Claim C10:  `upload_rclone` runs the `rclone copy` command and then
unconditionally logs `'Cloud upload completed.'` and returns normally: its
trace is the same for every rclone return code, it never raises, and its
last event is the completion log. -/
theorem upload_rclone_never_fails (cfg : List (String × PyVal)) (upRc upRc' : Int)
    (lp rp : String) :
    (upload_rclone cfg upRc lp rp).2 = none ∧
    Event.runShell (uploadCommand cfg lp rp) ∈ (upload_rclone cfg upRc lp rp).1 ∧
    (upload_rclone cfg upRc lp rp).1.getLast?
      = some (Event.logInfo "Cloud upload completed.") ∧
    upload_rclone cfg upRc lp rp = upload_rclone cfg upRc' lp rp := by
  exact ⟨rfl, by simp [upload_rclone], rfl, rfl⟩
